import Mathlib

/-!
Verification development for the vpp-ipfix plugin (src/ipfix/node.c).

The development shallowly embeds the flow-accounting fast path
(`create_flow_key`, `process_packet`), the expiration/export slow path
(`ipfix_process_records_fn` and its three `vec_foreach_index` loops), and
the wire-format builders (`ipfix_build_v10_packet`,
`ipfix_write_v10_data_packet`, `ipfix_send_packet`).

Modelling conventions, fixed once here:
* Machine integers are `Nat` with explicit truncation where the C code
  truncates: `htonl`/`ntohl` take a `u32` argument, so a `u64` passed to
  them is reduced mod 2^32; `u16` header fields are reduced mod 2^16.
* The host is little-endian (VPP targets x86-64/aarch64 little-endian),
  so `ntohs`/`htons`/`clib_byte_swap_u16` reverse the two low-order bytes
  and `ntohl`/`htonl` reverse the four low-order bytes.
* A `u16`/`u32` field that the code keeps in network byte order (IPv4
  addresses, transport ports, the on-wire length fields) is modelled by
  its big-endian (wire) numeric value; a `memcpy` of such a field emits
  its big-endian bytes (`beBytes`).  A field kept in host order (the
  `u64` timestamps and delta counters) is modelled by its host value; a
  `memcpy` of it on a little-endian host emits its little-endian bytes
  (`leBytes`).
* Millisecond wall-clock values are `u64` in the code; the scanner's
  `u64` additions `flow_end + idle_flow_timeout` and
  `flow_start + active_flow_timeout` are modelled with their mod-2^64
  wrap made explicit.
* VPP vectors are Lean lists.  `vec_add1` appends; `vec_del1 v i` is
  vppinfra's swap-delete: it copies the last element into slot `i` and
  shrinks the vector by one (when `i` is the last index it only shrinks,
  leaving the element bytes in place).  `vec_foreach_index (i, v)` is
  `for (i = 0; i < vec_len (v); i++)`, re-reading `vec_len (v)` on every
  iteration.
-/

/-- 2^16, the modulus of `u16` arithmetic. -/
def U16 : Nat := 65536

/-- 2^32, the modulus of `u32` arithmetic. -/
def U32 : Nat := 4294967296

/-- 2^64, the modulus of `u64` arithmetic. -/
def U64 : Nat := 18446744073709551616

/-- Byte swap of a 16-bit value (only the 16 low-order bits of `n` are
consulted, as when a wider C value is truncated to `u16`). -/
def bswap16 (n : Nat) : Nat := n % 256 * 256 + n / 256 % 256

/-- Byte swap of a 32-bit value (only the 32 low-order bits of `n` are
consulted, as when a wider C value is truncated to `u32`). -/
def bswap32 (n : Nat) : Nat :=
  n % 256 * 16777216 + n / 256 % 256 * 65536 + n / 65536 % 256 * 256 + n / 16777216 % 256

/-- `ntohs` on a little-endian host: byte swap of the low 16 bits. -/
def ntohs (n : Nat) : Nat := bswap16 n

/-- `ntohl` on a little-endian host: byte swap of the low 32 bits. -/
def ntohl (n : Nat) : Nat := bswap32 n

/-- `htonl` on a little-endian host: byte swap of the low 32 bits. -/
def htonl (n : Nat) : Nat := bswap32 n

/-- The `i`-th byte emitted first: big-endian bytes of the `w`-byte value
`n` (used for fields the code keeps in network byte order). -/
def beBytes : Nat → Nat → List Nat
  | 0, _ => []
  | w + 1, n => n / 256 ^ w % 256 :: beBytes w n

/-- Little-endian bytes of the `w`-byte value `n`, as a `memcpy` of a
host-order field emits them on a little-endian host. -/
def leBytes : Nat → Nat → List Nat
  | 0, _ => []
  | w + 1, n => n % 256 :: leBytes w (n / 256)

/-- Modelled from the spec: the layout of `ipfix_ip4_flow_key_t` (its
struct definition is not among the sources; `create_flow_key` writes the
five 5-tuple fields and the spec fixes the key as the 5-tuple padded with
zero bytes to the fixed hash-key width — here the 48 bytes of the
`bihash_48_8` key, i.e. 35 padding bytes after the 13 tuple bytes).
Network-byte-order fields carry their big-endian (wire) values. -/
structure FlowKey where
  src : Nat
  dst : Nat
  protocol : Nat
  src_port : Nat
  dst_port : Nat
  pad : List Nat
deriving DecidableEq, Repr

/-- The all-zero key bytes produced by `memset (&search, 0, ...)` in
`process_packet` before `create_flow_key` fills the tuple fields. -/
def flow_key_zero : FlowKey :=
  { src := 0, dst := 0, protocol := 0, src_port := 0, dst_port := 0
    pad := List.replicate 35 0 }

def TCP_PROTOCOL : Nat := 6

def UDP_PROTOCOL : Nat := 17

/-- The fields of an IPv4 header that the plugin reads, plus the bytes
following the fixed 20-byte header (`payload`: IPv4 options, then the
transport header).  `total_length` is the true (big-endian) value of the
network-order `length` field, so the code's `ntohs (packet->length)`
reads `total_length` (a `u16`, hence the explicit mod 2^16 below). -/
structure Ip4Header where
  ihl : Nat
  total_length : Nat
  protocol : Nat
  src : Nat
  dst : Nat
  payload : List Nat
deriving DecidableEq, Repr

/-- `ip4_next_header`: the transport header starts `4 * IHL` bytes into
the packet, i.e. `4 * IHL - 20` bytes into `payload`. -/
def ip4_next_header (h : Ip4Header) : List Nat :=
  h.payload.drop (4 * h.ihl - 20)

/-- `create_flow_key` (node.c:304-326): copy `src`, `dst`, `protocol`
verbatim into the given key buffer; for TCP (6) and UDP (17) also copy
the first two 16-bit words of the transport header, otherwise zero the
ports.  The two 16-bit words are network-order `u16`s, modelled by their
big-endian values. -/
def create_flow_key (k0 : FlowKey) (h : Ip4Header) : FlowKey :=
  let t := ip4_next_header h
  if h.protocol = UDP_PROTOCOL ∨ h.protocol = TCP_PROTOCOL then
    { k0 with src := h.src, dst := h.dst, protocol := h.protocol
              src_port := 256 * t.getD 0 0 + t.getD 1 0
              dst_port := 256 * t.getD 2 0 + t.getD 3 0 }
  else
    { k0 with src := h.src, dst := h.dst, protocol := h.protocol
              src_port := 0, dst_port := 0 }

/-- The key `process_packet` searches and inserts with: a zeroed 48-byte
buffer filled by `create_flow_key` (node.c:333-336). -/
def packet_flow_key (h : Ip4Header) : FlowKey :=
  create_flow_key flow_key_zero h

/-- The 48 bytes of the key as stored in the `bihash_48_8` key buffer:
the 13 tuple bytes (addresses and ports in network order, one protocol
byte) followed by the padding bytes. -/
def flow_key_bytes (k : FlowKey) : List Nat :=
  beBytes 4 k.src ++ beBytes 4 k.dst ++ [k.protocol % 256]
    ++ beBytes 2 k.src_port ++ beBytes 2 k.dst_port ++ k.pad

/-- A well-formed IPv4 header as assumed by the fast path: sane IHL, the
protocol byte and the network-order fields in range, byte-valued payload
long enough to contain the first four transport bytes. -/
def ValidIp4Header (h : Ip4Header) : Prop :=
  5 ≤ h.ihl ∧ h.protocol < 256 ∧ h.src < U32 ∧ h.dst < U32 ∧
    h.total_length < U16 ∧ (∀ b ∈ h.payload, b < 256) ∧
    4 * h.ihl - 20 + 4 ≤ h.payload.length

instance (h : Ip4Header) : Decidable (ValidIp4Header h) := by
  unfold ValidIp4Header; infer_instance

/-- Modelled from the spec: the layout of `ipfix_ip4_flow_value_t` (its
struct definition is not among the sources; the spec gives a key, two
millisecond timestamps and two 64-bit counters, which is exactly the set
of fields node.c reads and writes).  `packet_delta_count` and
`octet_delta_count` hold the raw `u64` field contents — the code stores
`htonl`-swapped values in them. -/
structure FlowValue where
  flow_key : FlowKey
  flow_start : Nat
  flow_end : Nat
  packet_delta_count : Nat
  octet_delta_count : Nat
deriving DecidableEq, Repr

/-- The packet count as the code itself reads it back
(`ntohl (record->packet_delta_count)`, node.c:134 and 363). -/
def FlowValue.packet_count (r : FlowValue) : Nat := ntohl r.packet_delta_count

/-- The octet count as the code itself reads it back
(`ntohl (record->octet_delta_count)`, node.c:135 and 364). -/
def FlowValue.octet_count (r : FlowValue) : Nat := ntohl r.octet_delta_count

/-- The in-memory exporter state touched by the claims: the `bihash`
flow index (an association list key → record index), the `flow_records`
vector and the `expired_records` vector of `ipfix_main_t`. -/
structure IpfixState where
  flow_hash : List (FlowKey × Nat)
  flow_records : List FlowValue
  expired_records : List FlowValue
deriving DecidableEq, Repr

def empty_state : IpfixState :=
  { flow_hash := [], flow_records := [], expired_records := [] }

/-- `clib_bihash_search_48_8`: look the key up in the index. -/
def hashSearch : List (FlowKey × Nat) → FlowKey → Option Nat
  | [], _ => none
  | e :: rest, k => if e.1 = k then some e.2 else hashSearch rest k

/-- `clib_bihash_add_del_48_8` with `is_add = 1`: map the key to the
value, replacing any existing entry. -/
def hashAdd : List (FlowKey × Nat) → FlowKey → Nat → List (FlowKey × Nat)
  | [], k, v => [(k, v)]
  | e :: rest, k, v => if e.1 = k then (k, v) :: rest else e :: hashAdd rest k v

/-- `clib_bihash_add_del_48_8` with `is_add = 0`: drop the key's entry
(a no-op when the key is absent, matching the warning-only path). -/
def hashDel : List (FlowKey × Nat) → FlowKey → List (FlowKey × Nat)
  | [], _ => []
  | e :: rest, k => if e.1 = k then hashDel rest k else e :: hashDel rest k

/-- The update branch of `process_packet` (node.c:358-365): set
`flow_end` to now, and run the counters through the 32-bit
`htonl (ntohl (...) + delta)` round trip.  `q.1` is `now_ms`, `q.2` the
packet; `ntohl` truncates its `u64` argument to `u32` and the `u32`
additions wrap mod 2^32 (`htonl` reduces its argument mod 2^32). -/
def update_flow_record (r : FlowValue) (q : Nat × Ip4Header) : FlowValue :=
  { r with flow_end := q.1
           packet_delta_count := htonl (ntohl r.packet_delta_count + 1)
           octet_delta_count :=
             htonl (ntohl r.octet_delta_count + q.2.total_length % U16) }

/-- `process_packet` (node.c:328-366): build the (zero-padded) key, search
the bihash; on a miss append a fresh record (counters seeded through
`htonl`) and index it at `vec_len (flow_records) - 1`; on a hit update the
record at the stored index in place.  A stale out-of-range index (C
undefined behaviour) is modelled as a no-op. -/
def process_packet (now : Nat) (p : Ip4Header) (s : IpfixState) : IpfixState :=
  let key := packet_flow_key p
  match hashSearch s.flow_hash key with
  | none =>
    let record : FlowValue :=
      { flow_key := key, flow_start := now, flow_end := now
        packet_delta_count := htonl 1
        octet_delta_count := htonl (p.total_length % U16) }
    { s with flow_records := s.flow_records ++ [record]
             flow_hash := hashAdd s.flow_hash key s.flow_records.length }
  | some idx =>
    match s.flow_records[idx]? with
    | none => s
    | some r =>
      { s with flow_records := s.flow_records.set idx (update_flow_record r (now, p)) }

/-- The fast path over a frame: each packet processed exactly once, in
order (`ipfix_node_fn`'s quad/single loops both just call
`process_packet` per buffer). -/
def process_packets (pkts : List (Nat × Ip4Header)) (s : IpfixState) : IpfixState :=
  pkts.foldl (fun st q => process_packet q.1 q.2 st) s

/-- `u64 idle_flow_timeout = 10 * 1e3` (node.c:710). -/
def idle_flow_timeout : Nat := 10000

/-- `u64 active_flow_timeout = 30 * 1e3` (node.c:711). -/
def active_flow_timeout : Nat := 30000

/-- vppinfra's `vec_del1 (v, i)`: overwrite slot `i` with the last
element and shrink the vector by one element.  When `i` is the last
index this reduces to dropping the last element (the vector memory is
not reallocated, so the deleted element's bytes remain in place). -/
def vec_del1 (l : List α) (i : Nat) : List α :=
  match l.getLast? with
  | none => l
  | some x => (l.set i x).dropLast

/-- The body of one iteration of the scanner's `vec_foreach_index` loop
over `flow_records` (node.c:720-743), at loop counter `idx`:

* idle branch (`(flow_end + idle_flow_timeout) < current_time`, `u64`
  arithmetic): append a copy of the record to `expired_records`,
  `vec_del1` it out of `flow_records`, and then build the hash-delete
  key from `record->flow_key` — but `record` still points at slot `idx`,
  which after `vec_del1` holds the element moved in from the end (or the
  expired record's own remains when `idx` was the last slot);
* active branch (`(flow_start + active_flow_timeout) < current_time`):
  append a copy to `expired_records` and reset the slot in place to
  `flow_start = flow_end = current_time` with zeroed counters;
* otherwise leave the state alone. -/
def scan_step (now idx : Nat) (s : IpfixState) : IpfixState :=
  match s.flow_records[idx]? with
  | none => s
  | some r =>
    if (r.flow_end + idle_flow_timeout) % U64 < now then
      { flow_hash :=
          hashDel s.flow_hash
            (match (vec_del1 s.flow_records idx)[idx]? with
             | some moved => moved.flow_key
             | none => r.flow_key)
        flow_records := vec_del1 s.flow_records idx
        expired_records := s.expired_records ++ [r] }
    else if (r.flow_start + active_flow_timeout) % U64 < now then
      { s with
          flow_records := s.flow_records.set idx
            { r with flow_start := now, flow_end := now
                     packet_delta_count := 0, octet_delta_count := 0 }
          expired_records := s.expired_records ++ [r] }
    else s

/-- The scanner's `vec_foreach_index` loop: `idx` advances every
iteration and the loop stops once `idx` reaches the (re-read) vector
length.  The fuel argument only bounds the recursion; an initial fuel of
`flow_records.length + 1` strictly exceeds the number of iterations,
since `idx` grows by one per step while the length never grows
(`scan_pass_go_fuel_stable` below makes this exact). -/
def scan_pass_go (now : Nat) : Nat → Nat → IpfixState → IpfixState
  | 0, _, s => s
  | fuel + 1, idx, s =>
    if idx < s.flow_records.length then
      scan_pass_go now fuel (idx + 1) (scan_step now idx s)
    else s

/-- One pass of the expiration scan over `flow_records`
(node.c:720-743). -/
def ipfix_scan_pass (now : Nat) (s : IpfixState) : IpfixState :=
  scan_pass_go now (s.flow_records.length + 1) 0 s

/-- The drain pattern shared by the `expired_records` encode loop
(node.c:745-751) and the `data_packets` transmit loop (node.c:753-766):
`vec_foreach_index (idx, q)` which at each index consumes `q[idx]`
(appending it to `done`, the order in which elements actually get
processed) and then `vec_del1`s that slot of the live vector.  Returns
the leftover queue and the processed order.  As with the scanner, fuel
`q.length + 1` strictly exceeds the iteration count
(`drain_go_fuel_stable`). -/
def drain_go : Nat → Nat → List α → List α → List α × List α
  | 0, _, q, done => (q, done)
  | fuel + 1, idx, q, done =>
    if h : idx < q.length then
      drain_go fuel (idx + 1) (vec_del1 q idx) (done ++ [q.get ⟨idx, h⟩])
    else (q, done)

/-- One tick of the `expired_records` → `data_packets` encode loop
(node.c:745-751): first component is what remains queued in
`expired_records` after the tick, second the order in which records are
handed to `ipfix_build_v10_packet` and appended to `data_packets`. -/
def ipfix_encode_expired_pass (expired : List FlowValue) :
    List FlowValue × List FlowValue :=
  drain_go (expired.length + 1) 0 expired []

/-- Modelled from the spec: `netflow_v10_header_t` (its struct
definition is not among the sources; the spec's §4.7 message header has
these five fields).  `ipfix_build_v10_packet` (node.c:527-528) assigns
only `version` and `timestamp`; the other fields are never written
anywhere in the sources. -/
structure NetflowV10Header where
  version : Nat
  timestamp : Nat
  length : Nat
  sequence_number : Nat
  domain_id : Nat
deriving DecidableEq, Repr

/-- Modelled from the spec: `netflow_v10_data_set_t` (its struct
definition is not among the sources).  Per §3/§4.6 a data set is a
4-octet set header followed by the record data.  `ipfix_build_v10_packet`
assigns only the malloc'd `data` member (node.c:539); no code in the
sources ever writes the set header, so its 4 bytes keep whatever the
uninitialized struct held — they are carried here explicitly.  (The C
struct actually stores `data` as a pointer, and
`ipfix_write_v10_data_packet` memcpys the whole struct, which would put
the pointer's bytes on the wire; the serializer below is the charitable
reading in which the record bytes follow the header.) -/
structure NetflowV10DataSet where
  header_bytes : List Nat
  data : List Nat
deriving DecidableEq, Repr

/-- A built v10 data packet: the message header plus its data sets
(`netflow_v10_data_packet_t`, modelled from the spec). -/
structure NetflowV10DataPacket where
  header : NetflowV10Header
  sets : List NetflowV10DataSet
deriving DecidableEq, Repr

/-- One tick of the `data_packets` transmit loop (node.c:753-766):
first component is what remains queued, second the order in which
packets are handed to `ipfix_send_packet`. -/
def ipfix_transmit_pass (packets : List NetflowV10DataPacket) :
    List NetflowV10DataPacket × List NetflowV10DataPacket :=
  drain_go (packets.length + 1) 0 packets []

/-- The 45 record bytes `ipfix_build_v10_packet` memcpys into the set's
data buffer (node.c:542-586), in template order: addresses, protocol and
ports are copied as stored (network byte order); `flow_start`,
`flow_end`, `octet_delta_count` and `packet_delta_count` are `u64`
fields copied as stored, i.e. little-endian host bytes of the raw field
values (for the two counters those raw values are the `htonl`-swapped
counts the accounter maintains). -/
def ipfix_build_record_bytes (r : FlowValue) : List Nat :=
  beBytes 4 r.flow_key.src ++ beBytes 4 r.flow_key.dst ++ [r.flow_key.protocol % 256]
    ++ beBytes 2 r.flow_key.src_port ++ beBytes 2 r.flow_key.dst_port
    ++ leBytes 8 r.flow_start ++ leBytes 8 r.flow_end
    ++ leBytes 8 r.octet_delta_count ++ leBytes 8 r.packet_delta_count

/-- `ipfix_build_v10_packet`'s set construction (node.c:532-589): the
single set gets a freshly malloc'd data buffer filled with the 45 record
bytes; the set header is left as the uninitialized bytes
`uninit_header`. -/
def ipfix_build_v10_set (uninit_header : List Nat) (r : FlowValue) :
    NetflowV10DataSet :=
  { header_bytes := uninit_header, data := ipfix_build_record_bytes r }

/-- The message-header part of `ipfix_build_v10_packet` (node.c:526-528):
only `version` (set to `ntohs (10)`) and `timestamp` (set to
`ntohs (current_time_clock.tv_sec)`, a 16-bit byte swap of the low 16
bits of the seconds count) are assigned; every other header field keeps
its previous (uninitialized) contents `prev`. -/
def ipfix_build_v10_packet_header (prev : NetflowV10Header) (tv_sec : Nat) :
    NetflowV10Header :=
  { prev with version := ntohs 10, timestamp := ntohs tv_sec }

/-- The per-set serialization step of `ipfix_write_v10_data_packet`
(node.c:612-628): `set_length = 4 + 45` bytes are memcpy'd from the set
object — the 4 set-header bytes followed (charitably, see
`NetflowV10DataSet`) by the 45 data bytes. -/
def ipfix_write_v10_set_bytes (s : NetflowV10DataSet) : List Nat :=
  s.header_bytes ++ s.data

/-- The exporter/collector configuration read by `ipfix_send_packet`
(fields of `ipfix_main_t`; the IPv4 addresses are kept in network byte
order and modelled by their big-endian values, the ports are host-order
`u16`s). -/
structure IpfixConfig where
  exporter_ip : Nat
  collector_ip : Nat
  exporter_port : Nat
  collector_port : Nat
deriving DecidableEq, Repr

/-- The bytes of the datagram assembled by `ipfix_send_packet`
(node.c:672-694), for an already-serialized IPFIX payload of
`payload.length` bytes: the 20 IPv4 header bytes (version/IHL byte
`0x45`, `tos = 0`, the network-order total length, `fragment_id = 0`,
`flags_and_fragment_offset = 0`, `ttl = 64`, `protocol = 17`,
`checksum = 0` — the code assigns literal zero and never computes a
checksum — then source and destination addresses), the 8 UDP header
bytes (byte-swapped exporter and collector ports, network-order UDP
length, and the never-assigned checksum field carried as the
uninitialized bytes `udp_checksum_bytes`), then the payload.  `u16`
header fields are stored through `clib_byte_swap_u16` / literal zero and
memcpy'd as little-endian host bytes. -/
def ipfix_send_packet_bytes (im : IpfixConfig) (payload : List Nat)
    (udp_checksum_bytes : List Nat) : List Nat :=
  [0x45, 0] ++ leBytes 2 (bswap16 ((20 + 8 + payload.length) % U16))
    ++ leBytes 2 0 ++ leBytes 2 0 ++ [64, 17] ++ leBytes 2 0
    ++ beBytes 4 im.exporter_ip ++ beBytes 4 im.collector_ip
    ++ leBytes 2 (bswap16 (im.exporter_port % U16))
    ++ leBytes 2 (bswap16 (im.collector_port % U16))
    ++ leBytes 2 (bswap16 ((8 + payload.length) % U16))
    ++ udp_checksum_bytes ++ payload

/-- Modelled from the spec: the RFC 791 header checksum — the 16-bit
one's complement of the one's complement sum of the header's big-endian
16-bit words, with the checksum field itself taken as zero.  (Nothing in
the sources computes this; it exists here only to compare the spec's
requirement against what `ipfix_send_packet` emits.) -/
def sum16be : List Nat → Nat
  | a :: b :: rest => (a * 256 + b) + sum16be rest
  | [a] => a * 256
  | [] => 0

/-- One end-around-carry folding step of the one's complement sum. -/
def ones_fold (s : Nat) : Nat := s % U16 + s / U16

/-- Modelled from the spec: RFC 791 checksum of a header given as a byte
list (two carry folds suffice for a 20-byte header). -/
def spec_rfc791_checksum (bs : List Nat) : Nat :=
  65535 - ones_fold (ones_fold (sum16be bs))

/-- Two distinct flow keys for scanner scenarios. -/
def key_a : FlowKey := { flow_key_zero with src := 1, dst := 2, protocol := 50 }

def key_c : FlowKey := { flow_key_zero with src := 3, dst := 4, protocol := 50 }

/-- A record for `key_a`, last packet at t = 0 ms. -/
def rec_a : FlowValue :=
  { flow_key := key_a, flow_start := 0, flow_end := 0
    packet_delta_count := htonl 1, octet_delta_count := htonl 100 }

/-- A record for `key_c`, last packet at t = 100 ms. -/
def rec_c : FlowValue :=
  { flow_key := key_c, flow_start := 100, flow_end := 100
    packet_delta_count := htonl 2, octet_delta_count := htonl 200 }

/-- Both records idle-expired at `now = 20000`; the index maps each key
to its record's position. -/
def scan_state0 : IpfixState :=
  { flow_hash := [(key_a, 0), (key_c, 1)], flow_records := [rec_a, rec_c]
    expired_records := [] }

/-- A record whose idle deadline lands exactly on `now = 35000` while its
active deadline (30000) has passed. -/
def c5_rec : FlowValue :=
  { flow_key := flow_key_zero, flow_start := 0, flow_end := 25000
    packet_delta_count := htonl 4, octet_delta_count := htonl 400 }

/-- A UDP packet 10.0.0.1:1000 → 10.0.0.2:53, total length 100. -/
def pkt_udp : Ip4Header :=
  { ihl := 5, total_length := 100, protocol := 17
    src := 0x0A000001, dst := 0x0A000002
    payload := [0x03, 0xE8, 0x00, 0x35, 0, 0, 0, 0] }

/-- A TCP packet 10.0.0.1:1000 → 10.0.0.2:80 with one 4-byte IPv4
option, total length 64. -/
def pkt_tcp : Ip4Header :=
  { ihl := 6, total_length := 64, protocol := 6
    src := 0x0A000001, dst := 0x0A000002
    payload := [0xDE, 0xAD, 0xBE, 0xEF, 0x03, 0xE8, 0x00, 0x50, 0, 0, 0, 0] }

def key_udp : FlowKey := packet_flow_key pkt_udp

/-- An existing record for `pkt_udp`'s flow and the matching
single-entry state, used to exercise the update path. -/
def rec_udp : FlowValue :=
  { flow_key := key_udp, flow_start := 1000, flow_end := 1000
    packet_delta_count := htonl 1, octet_delta_count := htonl 100 }

def st_udp : IpfixState :=
  { flow_hash := [(key_udp, 0)], flow_records := [rec_udp], expired_records := [] }

/-- A maximum-length non-TCP/UDP packet: 65538 of these overflow the
32-bit octet accumulation. -/
def pkt_big : Ip4Header :=
  { ihl := 5, total_length := 65535, protocol := 50, src := 1, dst := 2, payload := [] }

def key_big : FlowKey := packet_flow_key pkt_big

/-- The record of §8 scenario 5 as the accounter would hold it: tuple
fields as stored (network order), counters as the accounter maintains
them — `htonl`-swapped in their `u64` fields. -/
def scenario5_record : FlowValue :=
  { flow_key :=
      { src := 0x01020304, dst := 0x05060708, protocol := 6
        src_port := 80, dst_port := 443, pad := List.replicate 35 0 }
    flow_start := 0x11223344, flow_end := 0x55667788
    packet_delta_count := htonl 3, octet_delta_count := htonl 0x0AAAAAAA }

/-- The §8 scenario 5 expected bytes: set header `00 01 00 31` followed
by the 45 record octets with 64-bit big-endian timestamps/counters. -/
def spec_scenario5_set_bytes : List Nat :=
  [0x00, 0x01, 0x00, 0x31,
   0x01, 0x02, 0x03, 0x04, 0x05, 0x06, 0x07, 0x08, 0x06, 0x00, 0x50, 0x01, 0xBB,
   0x00, 0x00, 0x00, 0x00, 0x11, 0x22, 0x33, 0x44,
   0x00, 0x00, 0x00, 0x00, 0x55, 0x66, 0x77, 0x88,
   0x00, 0x00, 0x00, 0x00, 0x0A, 0xAA, 0xAA, 0xAA,
   0x00, 0x00, 0x00, 0x00, 0x00, 0x00, 0x00, 0x03]

/-- Exporter 10.0.0.1 → collector 10.0.0.2, both ports 4739. -/
def c8_cfg : IpfixConfig :=
  { exporter_ip := 0x0A000001, collector_ip := 0x0A000002
    exporter_port := 4739, collector_port := 4739 }

/-- Four pairwise distinct expired-record snapshots. -/
def c9_r0 : FlowValue :=
  { flow_key := flow_key_zero, flow_start := 0, flow_end := 0
    packet_delta_count := 0, octet_delta_count := 0 }

def c9_r1 : FlowValue := { c9_r0 with flow_start := 1 }

def c9_r2 : FlowValue := { c9_r0 with flow_start := 2 }

def c9_r3 : FlowValue := { c9_r0 with flow_start := 3 }

/-- Four pairwise distinct built data packets. -/
def c9_p (i : Nat) : NetflowV10DataPacket :=
  { header := { version := i, timestamp := 0, length := 0
                sequence_number := 0, domain_id := 0 }
    sets := [] }

theorem bswap32_lt (n : Nat) : bswap32 n < U32 := by
  unfold bswap32 U32
  have h1 : n % 256 < 256 := Nat.mod_lt _ (by norm_num)
  have h2 : n / 256 % 256 < 256 := Nat.mod_lt _ (by norm_num)
  have h3 : n / 65536 % 256 < 256 := Nat.mod_lt _ (by norm_num)
  have h4 : n / 16777216 % 256 < 256 := Nat.mod_lt _ (by norm_num)
  omega

theorem bswap16_lt (n : Nat) : bswap16 n < U16 := by
  unfold bswap16 U16
  have h1 : n % 256 < 256 := Nat.mod_lt _ (by norm_num)
  have h2 : n / 256 % 256 < 256 := Nat.mod_lt _ (by norm_num)
  omega

theorem bswap32_eq_of_bytes (p q r s : Nat) (hp : p < 256) (hq : q < 256)
    (hr : r < 256) (hs : s < 256) :
    bswap32 (p * 16777216 + q * 65536 + r * 256 + s) =
      s * 16777216 + r * 65536 + q * 256 + p := by
  have h1 : (p * 16777216 + q * 65536 + r * 256 + s) % 256 = s := by omega
  have h2 : (p * 16777216 + q * 65536 + r * 256 + s) / 256 = p * 65536 + q * 256 + r := by
    omega
  have h3 : (p * 16777216 + q * 65536 + r * 256 + s) / 65536 = p * 256 + q := by omega
  have h4 : (p * 16777216 + q * 65536 + r * 256 + s) / 16777216 = p := by omega
  unfold bswap32
  rw [h1, h2, h3, h4]
  omega

theorem bswap32_bswap32 (n : Nat) (h : n < U32) : bswap32 (bswap32 n) = n := by
  have hp : n / 16777216 % 256 < 256 := Nat.mod_lt _ (by norm_num)
  have hq : n / 65536 % 256 < 256 := Nat.mod_lt _ (by norm_num)
  have hr : n / 256 % 256 < 256 := Nat.mod_lt _ (by norm_num)
  have hs : n % 256 < 256 := Nat.mod_lt _ (by norm_num)
  have hdec : n = n / 16777216 % 256 * 16777216 + n / 65536 % 256 * 65536 +
      n / 256 % 256 * 256 + n % 256 := by
    unfold U32 at h
    omega
  calc bswap32 (bswap32 n)
      = bswap32 (bswap32 (n / 16777216 % 256 * 16777216 + n / 65536 % 256 * 65536 +
          n / 256 % 256 * 256 + n % 256)) := by rw [← hdec]
    _ = bswap32 (n % 256 * 16777216 + n / 256 % 256 * 65536 +
          n / 65536 % 256 * 256 + n / 16777216 % 256) := by
          rw [bswap32_eq_of_bytes _ _ _ _ hp hq hr hs]
    _ = n / 16777216 % 256 * 16777216 + n / 65536 % 256 * 65536 +
          n / 256 % 256 * 256 + n % 256 := bswap32_eq_of_bytes _ _ _ _ hs hr hq hp
    _ = n := hdec.symm

theorem ntohl_htonl (n : Nat) : ntohl (htonl n) = n % U32 := by
  unfold ntohl htonl
  have h := bswap32_lt n
  have h2 : bswap32 n = bswap32 (n % U32) := by
    unfold bswap32 U32
    omega
  rw [h2, bswap32_bswap32 (n % U32) (Nat.mod_lt _ (by unfold U32; norm_num))]

theorem vec_del1_length (l : List α) (i : Nat) (h : l ≠ []) :
    (vec_del1 l i).length = l.length - 1 := by
  unfold vec_del1
  match hl : l.getLast? with
  | none => exact absurd (List.getLast?_eq_none_iff.mp hl) h
  | some x => simp

theorem scan_step_length_le (now idx : Nat) (s : IpfixState) :
    (scan_step now idx s).flow_records.length ≤ s.flow_records.length := by
  unfold scan_step
  match hr : s.flow_records[idx]? with
  | none => simp
  | some r =>
    have hne : s.flow_records ≠ [] := by
      intro habs
      rw [habs] at hr
      simp at hr
    simp only
    by_cases h1 : (r.flow_end + idle_flow_timeout) % U64 < now
    · simp only [h1, if_pos]
      rw [vec_del1_length _ _ hne]
      omega
    · simp only [h1, if_neg, not_false_iff]
      by_cases h2 : (r.flow_start + active_flow_timeout) % U64 < now
      · simp only [h2, if_pos]
        simp
      · simp only [h2, if_neg, not_false_iff]
        exact Nat.le_refl _

/-- The fuel given to `scan_pass_go` by `ipfix_scan_pass` never cuts the
loop short: any fuel exceeding the remaining `length - idx` iterations
gives the same result, so the fuel-free C loop is captured exactly. -/
theorem scan_pass_go_fuel_stable (now : Nat) :
    ∀ fuel idx s, s.flow_records.length - idx < fuel →
      scan_pass_go now (fuel + 1) idx s = scan_pass_go now fuel idx s := by
  intro fuel
  induction fuel with
  | zero => intro idx s h; omega
  | succ n ih =>
    intro idx s h
    conv_lhs => rw [scan_pass_go]
    conv_rhs => rw [scan_pass_go]
    by_cases hidx : idx < s.flow_records.length
    · rw [if_pos hidx, if_pos hidx]
      have hlen := scan_step_length_le now idx s
      exact ih (idx + 1) (scan_step now idx s) (by omega)
    · rw [if_neg hidx, if_neg hidx]

theorem drain_go_fuel_stable :
    ∀ (fuel idx : Nat) (q done : List α), q.length - idx < fuel →
      drain_go (fuel + 1) idx q done = drain_go fuel idx q done := by
  intro fuel
  induction fuel with
  | zero => intro idx q done h; omega
  | succ n ih =>
    intro idx q done h
    conv_lhs => rw [drain_go]
    conv_rhs => rw [drain_go]
    by_cases hidx : idx < q.length
    · rw [dif_pos hidx, dif_pos hidx]
      have hne : q ≠ [] := by
        intro habs; rw [habs] at hidx; simp at hidx
      have hlen := vec_del1_length q idx hne
      exact ih (idx + 1) _ _ (by omega)
    · rw [dif_neg hidx, dif_neg hidx]

theorem packet_count_lt (r : FlowValue) : r.packet_count < U32 := bswap32_lt _

theorem octet_count_lt (r : FlowValue) : r.octet_count < U32 := bswap32_lt _

theorem update_flow_record_packet_count (r : FlowValue) (q : Nat × Ip4Header) :
    (update_flow_record r q).packet_count = (r.packet_count + 1) % U32 := by
  unfold update_flow_record FlowValue.packet_count
  exact ntohl_htonl _

theorem update_flow_record_octet_count (r : FlowValue) (q : Nat × Ip4Header) :
    (update_flow_record r q).octet_count =
      (r.octet_count + q.2.total_length % U16) % U32 := by
  unfold update_flow_record FlowValue.octet_count
  exact ntohl_htonl _

theorem update_flow_record_frame (r : FlowValue) (q : Nat × Ip4Header) :
    (update_flow_record r q).flow_key = r.flow_key ∧
      (update_flow_record r q).flow_start = r.flow_start ∧
      (update_flow_record r q).flow_end = q.1 := by
  unfold update_flow_record
  exact ⟨rfl, rfl, rfl⟩

theorem process_packet_hit (now : Nat) (p : Ip4Header) (s : IpfixState)
    (i : Nat) (r : FlowValue)
    (hs : hashSearch s.flow_hash (packet_flow_key p) = some i)
    (hr : s.flow_records[i]? = some r) :
    process_packet now p s =
      { s with flow_records := s.flow_records.set i (update_flow_record r (now, p)) } := by
  simp only [process_packet]
  rw [hs]
  simp only [hr]

theorem process_packet_miss (now : Nat) (p : Ip4Header) (s : IpfixState)
    (hs : hashSearch s.flow_hash (packet_flow_key p) = none) :
    process_packet now p s =
      { s with
          flow_records := s.flow_records ++
            [{ flow_key := packet_flow_key p, flow_start := now, flow_end := now
               packet_delta_count := htonl 1
               octet_delta_count := htonl (p.total_length % U16) }]
          flow_hash := hashAdd s.flow_hash (packet_flow_key p) s.flow_records.length } := by
  simp only [process_packet]
  rw [hs]

theorem hashSearch_single_self (k : FlowKey) (v : Nat) :
    hashSearch [(k, v)] k = some v := by
  unfold hashSearch
  simp

/-- While the table holds exactly the one flow `k` at index 0, a frame of
packets that all map to key `k` leaves the index untouched and folds
`update_flow_record` over the single record. -/
theorem process_packets_single_key (k : FlowKey) :
    ∀ (pkts : List (Nat × Ip4Header)) (r : FlowValue) (ex : List FlowValue),
      (∀ q ∈ pkts, packet_flow_key q.2 = k) →
      process_packets pkts ⟨[(k, 0)], [r], ex⟩ =
        ⟨[(k, 0)], [pkts.foldl update_flow_record r], ex⟩ := by
  intro pkts
  induction pkts with
  | nil => intro r ex _; rfl
  | cons q rest ih =>
    intro r ex hk
    have hq : packet_flow_key q.2 = k := hk q (List.mem_cons_self q rest)
    have hstep : process_packet q.1 q.2 ⟨[(k, 0)], [r], ex⟩ =
        ⟨[(k, 0)], [update_flow_record r (q.1, q.2)], ex⟩ := by
      rw [process_packet_hit q.1 q.2 _ 0 r (by rw [hq]; exact hashSearch_single_self k 0)
        (by simp)]
      rfl
    unfold process_packets at *
    simp only [List.foldl_cons]
    rw [hstep, ih _ _ (fun a ha => hk a (List.mem_cons_of_mem q ha))]

theorem foldl_update_packet_count :
    ∀ (pkts : List (Nat × Ip4Header)) (r : FlowValue),
      (pkts.foldl update_flow_record r).packet_count =
        (r.packet_count + pkts.length) % U32 := by
  intro pkts
  induction pkts with
  | nil =>
    intro r
    simp [Nat.mod_eq_of_lt (packet_count_lt r)]
  | cons q rest ih =>
    intro r
    simp only [List.foldl_cons, List.length_cons]
    rw [ih (update_flow_record r q), update_flow_record_packet_count]
    have h := packet_count_lt r
    unfold U32 at *
    omega

theorem foldl_update_octet_count :
    ∀ (pkts : List (Nat × Ip4Header)) (r : FlowValue),
      (pkts.foldl update_flow_record r).octet_count =
        (r.octet_count + (pkts.map (fun q => q.2.total_length % U16)).sum) % U32 := by
  intro pkts
  induction pkts with
  | nil =>
    intro r
    simp [Nat.mod_eq_of_lt (octet_count_lt r)]
  | cons q rest ih =>
    intro r
    simp only [List.foldl_cons, List.map_cons, List.sum_cons]
    rw [ih (update_flow_record r q), update_flow_record_octet_count]
    have h := octet_count_lt r
    unfold U32 at *
    omega

theorem beBytes_four (n : Nat) :
    beBytes 4 n = [n / 16777216 % 256, n / 65536 % 256, n / 256 % 256, n % 256] := by
  simp [beBytes]

theorem beBytes_two (n : Nat) : beBytes 2 n = [n / 256 % 256, n % 256] := by
  simp [beBytes]

theorem leBytes_two (n : Nat) : leBytes 2 n = [n % 256, n / 256 % 256] := by
  simp [leBytes]

theorem transport_byte_lt (h : Ip4Header) (hv : ValidIp4Header h) (i : Nat)
    (hi : i < 4) : (ip4_next_header h).getD i 0 < 256 := by
  obtain ⟨_, _, _, _, _, hbytes, hlen⟩ := hv
  have hlen2 : i < (ip4_next_header h).length := by
    unfold ip4_next_header
    rw [List.length_drop]
    omega
  rw [List.getD_eq_getElem?_getD, List.getElem?_eq_getElem hlen2]
  exact hbytes _ (List.drop_subset _ _ (List.getElem_mem hlen2))

theorem packet_flow_key_fields (h : Ip4Header) :
    (packet_flow_key h).src = h.src ∧ (packet_flow_key h).dst = h.dst ∧
      (packet_flow_key h).protocol = h.protocol ∧
      (packet_flow_key h).pad = List.replicate 35 0 := by
  by_cases hc : h.protocol = UDP_PROTOCOL ∨ h.protocol = TCP_PROTOCOL <;>
    simp [packet_flow_key, create_flow_key, flow_key_zero, hc]

theorem packet_flow_key_ports_tcpudp (h : Ip4Header)
    (hc : h.protocol = UDP_PROTOCOL ∨ h.protocol = TCP_PROTOCOL) :
    (packet_flow_key h).src_port =
        256 * (ip4_next_header h).getD 0 0 + (ip4_next_header h).getD 1 0 ∧
      (packet_flow_key h).dst_port =
        256 * (ip4_next_header h).getD 2 0 + (ip4_next_header h).getD 3 0 := by
  simp [packet_flow_key, create_flow_key, hc]

theorem packet_flow_key_ports_other (h : Ip4Header)
    (hc : ¬(h.protocol = UDP_PROTOCOL ∨ h.protocol = TCP_PROTOCOL)) :
    (packet_flow_key h).src_port = 0 ∧ (packet_flow_key h).dst_port = 0 := by
  simp [packet_flow_key, create_flow_key, hc]

theorem packet_flow_key_ports_lt (h : Ip4Header) (hv : ValidIp4Header h) :
    (packet_flow_key h).src_port < U16 ∧ (packet_flow_key h).dst_port < U16 := by
  have hb0 := transport_byte_lt h hv 0 (by omega)
  have hb1 := transport_byte_lt h hv 1 (by omega)
  have hb2 := transport_byte_lt h hv 2 (by omega)
  have hb3 := transport_byte_lt h hv 3 (by omega)
  by_cases hc : h.protocol = UDP_PROTOCOL ∨ h.protocol = TCP_PROTOCOL
  · obtain ⟨e1, e2⟩ := packet_flow_key_ports_tcpudp h hc
    rw [e1, e2]
    unfold U16
    omega
  · obtain ⟨e1, e2⟩ := packet_flow_key_ports_other h hc
    rw [e1, e2]
    unfold U16
    omega

/-- Byte-level equality of two in-range keys with equal padding is
exactly equality of their 5-tuples. -/
theorem flow_key_bytes_inj (k1 k2 : FlowKey)
    (h1s : k1.src < U32) (h2s : k2.src < U32)
    (h1d : k1.dst < U32) (h2d : k2.dst < U32)
    (h1p : k1.protocol < 256) (h2p : k2.protocol < 256)
    (h1sp : k1.src_port < U16) (h2sp : k2.src_port < U16)
    (h1dp : k1.dst_port < U16) (h2dp : k2.dst_port < U16)
    (hpad : k1.pad = k2.pad) :
    flow_key_bytes k1 = flow_key_bytes k2 ↔
      (k1.src = k2.src ∧ k1.dst = k2.dst ∧ k1.protocol = k2.protocol ∧
        k1.src_port = k2.src_port ∧ k1.dst_port = k2.dst_port) := by
  unfold U32 at h1s h2s h1d h2d
  unfold U16 at h1sp h2sp h1dp h2dp
  constructor
  · intro heq
    simp only [flow_key_bytes, beBytes_four, beBytes_two, List.cons_append,
      List.nil_append, List.cons.injEq] at heq
    obtain ⟨a1, a2, a3, a4, b1, b2, b3, b4, hp, c1, c2, d1, d2, -⟩ := heq
    refine ⟨by omega, by omega, by omega, by omega, by omega⟩
  · rintro ⟨e1, e2, e3, e4, e5⟩
    unfold flow_key_bytes
    rw [e1, e2, e3, e4, e5, hpad]

theorem le2_bswap16 (x : Nat) : leBytes 2 (bswap16 x) = beBytes 2 x := by
  have hmod : bswap16 x % 256 = x / 256 % 256 := by unfold bswap16; omega
  have hdiv : bswap16 x / 256 = x % 256 := by unfold bswap16; omega
  rw [leBytes_two, beBytes_two, hmod, hdiv,
    Nat.mod_eq_of_lt (Nat.mod_lt _ (by norm_num : (0:Nat) < 256))]

theorem bswap16_mod_u16 (x : Nat) : bswap16 (x % U16) = bswap16 x := by
  unfold bswap16 U16
  omega

/-- C1: the claim says an idle-expired record's key is removed from the
table so that looking it up right after the pass returns empty, and that
every record present at the start of the pass is classified exactly once.
On the state `scan_state0` (records `rec_a`, `rec_c`, both idle-expired
at `now = 20000`, each key indexed), the pass instead: removes `rec_a`
from the record store but deletes `key_c` — the key of the record that
`vec_del1` moved into slot 0 — from the hash, so `key_a` still resolves
after the pass; and never classifies `rec_c` at all (it stays in the
store although its idle deadline, shown in the last conjunct, had
passed). -/
theorem c1_scan_pass_divergence :
    ipfix_scan_pass 20000 scan_state0 =
      { flow_hash := [(key_a, 0)], flow_records := [rec_c], expired_records := [rec_a] } ∧
    hashSearch (ipfix_scan_pass 20000 scan_state0).flow_hash key_a = some 0 ∧
    hashSearch (ipfix_scan_pass 20000 scan_state0).flow_hash key_c = none ∧
    (rec_c.flow_end + idle_flow_timeout) % U64 < 20000 := by
  decide

/-- C2: the claim's invariant — a live record exists in the store iff a
matching entry exists in the hash index, with the stored index
designating that record until its key is removed.  After the same
`scan_state0` pass: `rec_c` is live in the store but `key_c` has no hash
entry, while `key_a` still has an entry although no live record carries
`key_a` (the `FIXME` at node.c:353 concedes the index instability). -/
theorem c2_index_invariant_broken :
    (ipfix_scan_pass 20000 scan_state0).flow_records.map FlowValue.flow_key = [key_c] ∧
    hashSearch (ipfix_scan_pass 20000 scan_state0).flow_hash key_c = none ∧
    hashSearch (ipfix_scan_pass 20000 scan_state0).flow_hash key_a = some 0 ∧
    (∀ r ∈ (ipfix_scan_pass 20000 scan_state0).flow_records, r.flow_key ≠ key_a) := by
  decide

/-- C9: the claim says the i-th snapshot pushed is the i-th encoded and
datagrams transmit FIFO.  With four snapshots queued in one pass, the
`vec_del1`-inside-`vec_foreach_index` drain processes the 1st and 2nd,
leaves the 4th and 3rd behind *in swapped order*, and the following
ticks encode them as 4th, then 3rd — overall order 1st, 2nd, 4th, 3rd.
The transmit loop has the identical structure and the identical
reordering. -/
theorem c9_drain_not_fifo :
    ipfix_encode_expired_pass [c9_r0, c9_r1, c9_r2, c9_r3] = ([c9_r3, c9_r2], [c9_r0, c9_r1]) ∧
    ipfix_encode_expired_pass [c9_r3, c9_r2] = ([c9_r2], [c9_r3]) ∧
    ipfix_encode_expired_pass [c9_r2] = ([], [c9_r2]) ∧
    [c9_r0, c9_r1] ++ [c9_r3] ++ [c9_r2] ≠ [c9_r0, c9_r1, c9_r2, c9_r3] ∧
    ipfix_transmit_pass [c9_p 0, c9_p 1, c9_p 2, c9_p 3] = ([c9_p 3, c9_p 2], [c9_p 0, c9_p 1]) ∧
    [c9_p 0, c9_p 1] ++ [c9_p 3] ++ [c9_p 2] ≠ [c9_p 0, c9_p 1, c9_p 2, c9_p 3] := by
  decide

/-- C6: the claim says encoding the §8 scenario-5 snapshot yields the
set header `00 01 00 31` followed by the 45 big-endian record bytes.
Evaluating the builder and serializer at that record (with the
never-written set-header bytes taken as zero) instead yields a zero set
header and host-order (little-endian) `u64` timestamp/counter fields —
the counters additionally carrying their 32-bit-swapped in-memory
values — which differs from the spec's byte string. -/
theorem c6_set_encoding_diverges :
    ipfix_write_v10_set_bytes (ipfix_build_v10_set [0, 0, 0, 0] scenario5_record) =
      [0x00, 0x00, 0x00, 0x00,
       0x01, 0x02, 0x03, 0x04, 0x05, 0x06, 0x07, 0x08, 0x06, 0x00, 0x50, 0x01, 0xBB,
       0x44, 0x33, 0x22, 0x11, 0x00, 0x00, 0x00, 0x00,
       0x88, 0x77, 0x66, 0x55, 0x00, 0x00, 0x00, 0x00,
       0x0A, 0xAA, 0xAA, 0xAA, 0x00, 0x00, 0x00, 0x00,
       0x00, 0x00, 0x00, 0x03, 0x00, 0x00, 0x00, 0x00] ∧
    ipfix_write_v10_set_bytes (ipfix_build_v10_set [0, 0, 0, 0] scenario5_record) ≠
      spec_scenario5_set_bytes := by
  decide

/-- C7: the claim says the 16-octet message header carries
`export_time` = seconds since epoch and a sequence number counting
previously exported records.  The builder assigns only `version` and
`timestamp`, and `timestamp` gets `ntohs (tv_sec)` — a 16-bit byte swap
of the low 16 bits of the seconds count: at export time 1700000000 s the
stored value is 241.  `length`, `sequence_number` and the domain id are
left at whatever the uninitialized header held (no sequence counter
exists anywhere in the sources). -/
theorem c7_message_header_diverges (prev : NetflowV10Header) :
    (ipfix_build_v10_packet_header prev 1700000000).timestamp = 241 ∧
    (ipfix_build_v10_packet_header prev 1700000000).sequence_number = prev.sequence_number ∧
    (ipfix_build_v10_packet_header prev 1700000000).length = prev.length ∧
    (ipfix_build_v10_packet_header prev 1700000000).domain_id = prev.domain_id ∧
    (241 : Nat) ≠ 1700000000 := by
  exact ⟨rfl, rfl, rfl, rfl, by decide⟩

theorem scan_pass_go_succ (now fuel idx : Nat) (s : IpfixState) :
    scan_pass_go now (fuel + 1) idx s =
      if idx < s.flow_records.length then
        scan_pass_go now fuel (idx + 1) (scan_step now idx s)
      else s := rfl

/-- C5 (amended): when `flow_end + idle_timeout = now` the record is not
idle-expired (the comparison is strict), but it can still be
active-expired in the same pass when `flow_start + active_timeout < now`
— only when the active deadline has also not passed is the record left
untouched; and whenever the idle condition holds, the idle outcome wins:
the record is removed from the store (and a hash delete issued), not
counter-reset in place. -/
theorem c5_strictness_and_idle_wins :
    (∀ (r : FlowValue) (now : Nat) (hash : List (FlowKey × Nat)),
        r.flow_end + idle_flow_timeout = now → now < U64 →
        r.flow_start + active_flow_timeout < U64 →
        ¬ r.flow_start + active_flow_timeout < now →
        ipfix_scan_pass now ⟨hash, [r], []⟩ = ⟨hash, [r], []⟩) ∧
    (∀ (r : FlowValue) (now : Nat) (hash : List (FlowKey × Nat)),
        r.flow_end + idle_flow_timeout = now → now < U64 →
        r.flow_start + active_flow_timeout < U64 →
        r.flow_start + active_flow_timeout < now →
        ipfix_scan_pass now ⟨hash, [r], []⟩ =
          ⟨hash, [⟨r.flow_key, now, now, 0, 0⟩], [r]⟩) ∧
    (∀ (r : FlowValue) (now : Nat) (hash : List (FlowKey × Nat)),
        (r.flow_end + idle_flow_timeout) % U64 < now →
        ipfix_scan_pass now ⟨hash, [r], []⟩ = ⟨hashDel hash r.flow_key, [], [r]⟩) := by
  have hnotidle : ∀ (r : FlowValue) (now : Nat),
      r.flow_end + idle_flow_timeout = now → now < U64 →
      ¬ (r.flow_end + idle_flow_timeout) % U64 < now := by
    intro r now hend hnow
    rw [hend, Nat.mod_eq_of_lt hnow]
    exact lt_irrefl now
  refine ⟨?_, ?_, ?_⟩
  · intro r now hash hend hnow hactlt hnact
    have hstep : scan_step now 0 ⟨hash, [r], []⟩ = ⟨hash, [r], []⟩ := by
      have h1 := hnotidle r now hend hnow
      have h2 : ¬ (r.flow_start + active_flow_timeout) % U64 < now := by
        rw [Nat.mod_eq_of_lt hactlt]; exact hnact
      simp [scan_step, h1, h2]
    show scan_pass_go now (1 + 1) 0 ⟨hash, [r], []⟩ = ⟨hash, [r], []⟩
    rw [scan_pass_go_succ, if_pos (by simp), hstep, scan_pass_go_succ, if_neg (by simp)]
  · intro r now hash hend hnow hactlt hact
    have hstep : scan_step now 0 ⟨hash, [r], []⟩ =
        ⟨hash, [⟨r.flow_key, now, now, 0, 0⟩], [r]⟩ := by
      have h1 := hnotidle r now hend hnow
      have h2 : (r.flow_start + active_flow_timeout) % U64 < now := by
        rw [Nat.mod_eq_of_lt hactlt]; exact hact
      simp [scan_step, h1, h2]
    show scan_pass_go now (1 + 1) 0 ⟨hash, [r], []⟩ = _
    rw [scan_pass_go_succ, if_pos (by simp), hstep, scan_pass_go_succ, if_neg (by simp)]
  · intro r now hash hidle
    have hstep : scan_step now 0 ⟨hash, [r], []⟩ = ⟨hashDel hash r.flow_key, [], [r]⟩ := by
      simp [scan_step, vec_del1, hidle]
    show scan_pass_go now (1 + 1) 0 ⟨hash, [r], []⟩ = _
    rw [scan_pass_go_succ, if_pos (by simp), hstep, scan_pass_go_succ, if_neg (by simp)]

/-- C5 (counterexample to the claim as stated): the claim asserts that a
record with `flow_end + idle_timeout = now` is "not expired by that
pass".  For `c5_rec` (`flow_start = 0`, `flow_end = 25000`) at
`now = 35000` the idle comparison indeed fails, but the active branch
fires: a snapshot of the record is pushed onto the expired queue and the
record is reset in place — it is expired by that pass. -/
theorem c5_exact_boundary_counterexample :
    c5_rec.flow_end + idle_flow_timeout = 35000 ∧
    ipfix_scan_pass 35000 ⟨[(flow_key_zero, 0)], [c5_rec], []⟩ =
      ⟨[(flow_key_zero, 0)], [⟨c5_rec.flow_key, 35000, 35000, 0, 0⟩], [c5_rec]⟩ ∧
    [c5_rec] ≠ ([] : List FlowValue) := by
  decide

/-- C5 witness: the three clauses of `c5_strictness_and_idle_wins`
instantiated — `rec_c` exactly at its idle boundary with the active
deadline not yet passed (untouched), `c5_rec` at its idle boundary with
the active deadline passed (rotated), and `rec_a` past its idle deadline
(removed). -/
theorem c5_strictness_and_idle_wins_witness :
    ipfix_scan_pass 10100 ⟨[(key_c, 1)], [rec_c], []⟩ = ⟨[(key_c, 1)], [rec_c], []⟩ ∧
    ipfix_scan_pass 35000 ⟨[], [c5_rec], []⟩ =
      ⟨[], [⟨c5_rec.flow_key, 35000, 35000, 0, 0⟩], [c5_rec]⟩ ∧
    ipfix_scan_pass 20000 ⟨[(key_a, 0)], [rec_a], []⟩ =
      ⟨hashDel [(key_a, 0)] rec_a.flow_key, [], [rec_a]⟩ :=
  ⟨c5_strictness_and_idle_wins.1 rec_c 10100 _ (by decide) (by decide) (by decide) (by decide),
   c5_strictness_and_idle_wins.2.1 c5_rec 35000 _ (by decide) (by decide) (by decide) (by decide),
   c5_strictness_and_idle_wins.2.2 rec_a 20000 _ (by decide)⟩

/-- C10: when the packet's flow key hits an indexed record, the update
path mutates only that record's `flow_end` and the two counters: the
hash index and the expired queue are untouched, the store keeps its
length, every other slot is unchanged, and the matched record's
`flow_key` and `flow_start` survive the update. -/
theorem c10_update_frame_effect (now : Nat) (p : Ip4Header) (s : IpfixState) (i : Nat)
    (hs : hashSearch s.flow_hash (packet_flow_key p) = some i)
    (hi : i < s.flow_records.length) :
    ∃ r, s.flow_records[i]? = some r ∧
      process_packet now p s =
        { s with flow_records := s.flow_records.set i (update_flow_record r (now, p)) } ∧
      (process_packet now p s).flow_hash = s.flow_hash ∧
      (process_packet now p s).expired_records = s.expired_records ∧
      (process_packet now p s).flow_records.length = s.flow_records.length ∧
      (∀ j, j ≠ i → (process_packet now p s).flow_records[j]? = s.flow_records[j]?) ∧
      (update_flow_record r (now, p)).flow_key = r.flow_key ∧
      (update_flow_record r (now, p)).flow_start = r.flow_start ∧
      (update_flow_record r (now, p)).flow_end = now := by
  have hr : s.flow_records[i]? = some s.flow_records[i] := List.getElem?_eq_getElem hi
  have hp := process_packet_hit now p s i _ hs hr
  refine ⟨s.flow_records[i], hr, hp, ?_, ?_, ?_, ?_, rfl, rfl, rfl⟩
  · rw [hp]
  · rw [hp]
  · rw [hp]; simp
  · intro j hj
    rw [hp]
    exact List.getElem?_set_ne (fun e => hj e.symm)

/-- C10 witness: the frame effect at a concrete one-record state hit by
a matching UDP packet. -/
theorem c10_update_frame_effect_witness :
    ∃ r, st_udp.flow_records[0]? = some r ∧
      process_packet 1100 pkt_udp st_udp =
        { st_udp with flow_records := st_udp.flow_records.set 0 (update_flow_record r (1100, pkt_udp)) } ∧
      (process_packet 1100 pkt_udp st_udp).flow_hash = st_udp.flow_hash ∧
      (process_packet 1100 pkt_udp st_udp).expired_records = st_udp.expired_records ∧
      (process_packet 1100 pkt_udp st_udp).flow_records.length = st_udp.flow_records.length ∧
      (∀ j, j ≠ 0 → (process_packet 1100 pkt_udp st_udp).flow_records[j]? = st_udp.flow_records[j]?) ∧
      (update_flow_record r (1100, pkt_udp)).flow_key = r.flow_key ∧
      (update_flow_record r (1100, pkt_udp)).flow_start = r.flow_start ∧
      (update_flow_record r (1100, pkt_udp)).flow_end = 1100 :=
  c10_update_frame_effect 1100 pkt_udp st_udp 0 (by decide) (by decide)

/-- C4: the key builder copies `src`, `dst` and `protocol` verbatim; for
TCP (6) and UDP (17) the ports are the first two 16-bit words of the
transport header located through the IHL field, otherwise both ports are
zero; the padding bytes are all zero; and, over valid headers, bytewise
equality of the produced 48-byte keys is exactly equality of the
5-tuples. -/
theorem c4_flow_key_builder (h1 : Ip4Header) (hv1 : ValidIp4Header h1) :
    (packet_flow_key h1).src = h1.src ∧
    (packet_flow_key h1).dst = h1.dst ∧
    (packet_flow_key h1).protocol = h1.protocol ∧
    ((h1.protocol = TCP_PROTOCOL ∨ h1.protocol = UDP_PROTOCOL) →
      (packet_flow_key h1).src_port =
          256 * (ip4_next_header h1).getD 0 0 + (ip4_next_header h1).getD 1 0 ∧
        (packet_flow_key h1).dst_port =
          256 * (ip4_next_header h1).getD 2 0 + (ip4_next_header h1).getD 3 0) ∧
    (h1.protocol ≠ TCP_PROTOCOL ∧ h1.protocol ≠ UDP_PROTOCOL →
      (packet_flow_key h1).src_port = 0 ∧ (packet_flow_key h1).dst_port = 0) ∧
    (packet_flow_key h1).pad = List.replicate 35 0 ∧
    (∀ h2 : Ip4Header, ValidIp4Header h2 →
      (flow_key_bytes (packet_flow_key h1) = flow_key_bytes (packet_flow_key h2) ↔
        ((packet_flow_key h1).src = (packet_flow_key h2).src ∧
         (packet_flow_key h1).dst = (packet_flow_key h2).dst ∧
         (packet_flow_key h1).protocol = (packet_flow_key h2).protocol ∧
         (packet_flow_key h1).src_port = (packet_flow_key h2).src_port ∧
         (packet_flow_key h1).dst_port = (packet_flow_key h2).dst_port))) := by
  obtain ⟨f1, f2, f3, f4⟩ := packet_flow_key_fields h1
  refine ⟨f1, f2, f3, ?_, ?_, f4, ?_⟩
  · intro hc
    exact packet_flow_key_ports_tcpudp h1 hc.symm
  · intro hc
    exact packet_flow_key_ports_other h1 (fun hor => hor.elim (fun e => hc.2 e) (fun e => hc.1 e))
  · intro h2 hv2
    obtain ⟨g1, g2, g3, g4⟩ := packet_flow_key_fields h2
    obtain ⟨sp1, dp1⟩ := packet_flow_key_ports_lt h1 hv1
    obtain ⟨sp2, dp2⟩ := packet_flow_key_ports_lt h2 hv2
    exact flow_key_bytes_inj (packet_flow_key h1) (packet_flow_key h2)
      (by rw [f1]; exact hv1.2.2.1) (by rw [g1]; exact hv2.2.2.1)
      (by rw [f2]; exact hv1.2.2.2.1) (by rw [g2]; exact hv2.2.2.2.1)
      (by rw [f3]; exact hv1.2.1) (by rw [g3]; exact hv2.2.1)
      sp1 sp2 dp1 dp2 (by rw [f4, g4])

/-- C4 witness: the builder's contract at the concrete UDP packet
`pkt_udp`, with the bytewise-equality criterion instantiated against
the concrete TCP packet `pkt_tcp` (whose transport header sits behind a
4-byte IPv4 option). -/
theorem c4_flow_key_builder_witness :
    ((packet_flow_key pkt_udp).src = pkt_udp.src ∧
     (packet_flow_key pkt_udp).dst = pkt_udp.dst ∧
     (packet_flow_key pkt_udp).protocol = pkt_udp.protocol ∧
     ((pkt_udp.protocol = TCP_PROTOCOL ∨ pkt_udp.protocol = UDP_PROTOCOL) →
       (packet_flow_key pkt_udp).src_port =
           256 * (ip4_next_header pkt_udp).getD 0 0 + (ip4_next_header pkt_udp).getD 1 0 ∧
         (packet_flow_key pkt_udp).dst_port =
           256 * (ip4_next_header pkt_udp).getD 2 0 + (ip4_next_header pkt_udp).getD 3 0) ∧
     (pkt_udp.protocol ≠ TCP_PROTOCOL ∧ pkt_udp.protocol ≠ UDP_PROTOCOL →
       (packet_flow_key pkt_udp).src_port = 0 ∧ (packet_flow_key pkt_udp).dst_port = 0) ∧
     (packet_flow_key pkt_udp).pad = List.replicate 35 0 ∧
     (∀ h2 : Ip4Header, ValidIp4Header h2 →
       (flow_key_bytes (packet_flow_key pkt_udp) = flow_key_bytes (packet_flow_key h2) ↔
         ((packet_flow_key pkt_udp).src = (packet_flow_key h2).src ∧
          (packet_flow_key pkt_udp).dst = (packet_flow_key h2).dst ∧
          (packet_flow_key pkt_udp).protocol = (packet_flow_key h2).protocol ∧
          (packet_flow_key pkt_udp).src_port = (packet_flow_key h2).src_port ∧
          (packet_flow_key pkt_udp).dst_port = (packet_flow_key h2).dst_port)))) ∧
    ValidIp4Header pkt_tcp :=
  ⟨c4_flow_key_builder pkt_udp (by decide), by decide⟩

/-- C3 (amended): per-packet accounting as the claim states it, except
that the counters are maintained through 32-bit `htonl`/`ntohl` round
trips and therefore accumulate modulo 2^32: a hit sets `flow_end = now`
and bumps the counters mod 2^32; a miss appends a fresh record with
`flow_start = flow_end = now`, packet count 1 and octet count
`ntohs (total_length)`; and a same-key packet train starting from the
empty exporter leaves one record whose counters are the packet count and
octet sum reduced mod 2^32. -/
theorem c3_accounting_mod32 :
    (∀ (now : Nat) (p : Ip4Header) (s : IpfixState) (i : Nat) (r : FlowValue),
        hashSearch s.flow_hash (packet_flow_key p) = some i →
        s.flow_records[i]? = some r →
        (process_packet now p s).flow_records =
            s.flow_records.set i (update_flow_record r (now, p)) ∧
          (update_flow_record r (now, p)).flow_end = now ∧
          (update_flow_record r (now, p)).packet_count = (r.packet_count + 1) % U32 ∧
          (update_flow_record r (now, p)).octet_count =
            (r.octet_count + p.total_length % U16) % U32) ∧
    (∀ (now : Nat) (p : Ip4Header) (s : IpfixState),
        hashSearch s.flow_hash (packet_flow_key p) = none →
        ∃ R, (process_packet now p s).flow_records = s.flow_records ++ [R] ∧
          R.flow_key = packet_flow_key p ∧ R.flow_start = now ∧ R.flow_end = now ∧
          R.packet_count = 1 ∧ R.octet_count = p.total_length % U16) ∧
    (∀ (pkts : List (Nat × Ip4Header)) (k : FlowKey),
        pkts ≠ [] →
        (∀ q ∈ pkts, packet_flow_key q.2 = k ∧ q.2.total_length < U16) →
        ∃ R, (process_packets pkts empty_state).flow_records = [R] ∧
          R.packet_count = pkts.length % U32 ∧
          R.octet_count = (pkts.map (fun q => q.2.total_length)).sum % U32) := by
  have hmodU16 : ∀ n : Nat, n % U16 % U32 = n % U16 := by
    intro n
    have h : n % U16 < U16 := Nat.mod_lt _ (by unfold U16; norm_num)
    exact Nat.mod_eq_of_lt (lt_trans h (by unfold U16 U32; norm_num))
  refine ⟨?_, ?_, ?_⟩
  · intro now p s i r hs hr
    refine ⟨?_, rfl, update_flow_record_packet_count r (now, p),
      update_flow_record_octet_count r (now, p)⟩
    rw [process_packet_hit now p s i r hs hr]
  · intro now p s hs
    refine ⟨⟨packet_flow_key p, now, now, htonl 1, htonl (p.total_length % U16)⟩,
      ?_, rfl, rfl, rfl, ?_, ?_⟩
    · rw [process_packet_miss now p s hs]
    · show ntohl (htonl 1) = 1
      decide
    · show ntohl (htonl (p.total_length % U16)) = p.total_length % U16
      rw [ntohl_htonl]
      exact hmodU16 _
  · intro pkts k hne hk
    cases pkts with
    | nil => exact absurd rfl hne
    | cons q rest =>
      obtain ⟨hkq, hlq⟩ := hk q (List.mem_cons_self q rest)
      have hmiss : hashSearch empty_state.flow_hash (packet_flow_key q.2) = none := rfl
      have hstep : process_packet q.1 q.2 empty_state =
          ⟨[(k, 0)], [⟨k, q.1, q.1, htonl 1, htonl (q.2.total_length % U16)⟩], []⟩ := by
        rw [process_packet_miss q.1 q.2 empty_state hmiss, hkq]
        rfl
      have hrest : ∀ a ∈ rest, packet_flow_key a.2 = k :=
        fun a ha => (hk a (List.mem_cons_of_mem q ha)).1
      have hmain : process_packets (q :: rest) empty_state =
          ⟨[(k, 0)],
           [rest.foldl update_flow_record ⟨k, q.1, q.1, htonl 1, htonl (q.2.total_length % U16)⟩],
           []⟩ := by
        show process_packets rest (process_packet q.1 q.2 empty_state) = _
        rw [hstep]
        exact process_packets_single_key k rest _ [] hrest
      refine ⟨rest.foldl update_flow_record ⟨k, q.1, q.1, htonl 1, htonl (q.2.total_length % U16)⟩,
        by rw [hmain], ?_, ?_⟩
      · rw [foldl_update_packet_count]
        have hc : (⟨k, q.1, q.1, htonl 1, htonl (q.2.total_length % U16)⟩ : FlowValue).packet_count
            = 1 := by
          show ntohl (htonl 1) = 1
          decide
        rw [hc]
        simp only [List.length_cons]
        unfold U32
        omega
      · rw [foldl_update_octet_count]
        have hc : (⟨k, q.1, q.1, htonl 1, htonl (q.2.total_length % U16)⟩ : FlowValue).octet_count
            = q.2.total_length % U16 := by
          show ntohl (htonl (q.2.total_length % U16)) = q.2.total_length % U16
          rw [ntohl_htonl]
          exact hmodU16 _
        rw [hc]
        have hmape : rest.map (fun a => a.2.total_length % U16) =
            rest.map (fun a => a.2.total_length) := by
          apply List.map_congr_left
          intro a ha
          exact Nat.mod_eq_of_lt (hk a (List.mem_cons_of_mem q ha)).2
        rw [hmape, List.map_cons, List.sum_cons, Nat.mod_eq_of_lt hlq]

/-- C3 witness: the hit clause at a matching one-record state and the
aggregate clause at a concrete two-packet same-key train. -/
theorem c3_accounting_mod32_witness :
    ((process_packet 1100 pkt_udp st_udp).flow_records =
        st_udp.flow_records.set 0 (update_flow_record rec_udp (1100, pkt_udp)) ∧
      (update_flow_record rec_udp (1100, pkt_udp)).flow_end = 1100 ∧
      (update_flow_record rec_udp (1100, pkt_udp)).packet_count = (rec_udp.packet_count + 1) % U32 ∧
      (update_flow_record rec_udp (1100, pkt_udp)).octet_count =
        (rec_udp.octet_count + pkt_udp.total_length % U16) % U32) ∧
    (∃ R, (process_packets [((1000 : Nat), pkt_udp), ((1200 : Nat), pkt_udp)] empty_state).flow_records = [R] ∧
      R.packet_count = ([((1000 : Nat), pkt_udp), ((1200 : Nat), pkt_udp)] : List (Nat × Ip4Header)).length % U32 ∧
      R.octet_count =
        (([((1000 : Nat), pkt_udp), ((1200 : Nat), pkt_udp)] : List (Nat × Ip4Header)).map
          (fun q => q.2.total_length)).sum % U32) :=
  ⟨c3_accounting_mod32.1 1100 pkt_udp st_udp 0 rec_udp (by decide) (by decide),
   c3_accounting_mod32.2.2 [((1000 : Nat), pkt_udp), ((1200 : Nat), pkt_udp)] key_udp
     (by decide) (by decide)⟩

/-- Octet accumulation over a train of identical packets: each step adds
`total_length mod 2^16` modulo 2^32. -/
theorem foldl_update_replicate_octet (p : Nat × Ip4Header) :
    ∀ (n : Nat) (r : FlowValue),
      ((List.replicate n p).foldl update_flow_record r).octet_count =
        (r.octet_count + n * (p.2.total_length % U16)) % U32 := by
  intro n
  induction n with
  | zero =>
    intro r
    simp [Nat.mod_eq_of_lt (octet_count_lt r)]
  | succ m ih =>
    intro r
    rw [List.replicate_succ, List.foldl_cons, ih (update_flow_record r p),
      update_flow_record_octet_count, Nat.succ_mul]
    have h := octet_count_lt r
    unfold U32 at *
    omega

/-- C3 (counterexample to the claim as stated): the claim promises
64-bit counters holding `octet_count = L1 + ... + LN` exactly.  Feeding
65538 maximum-length packets (total length 65535 each) of one non-TCP/UDP
flow into the empty exporter leaves the single record's octet count at
65534 = (65538 * 65535) mod 2^32, not the claimed sum 65538 * 65535:
the `htonl`/`ntohl` round trip truncates the accumulation to 32 bits. -/
theorem c3_octet_overflow_counterexample :
    ∃ R, (process_packets (List.replicate 65538 ((1000 : Nat), pkt_big)) empty_state).flow_records = [R] ∧
      R.octet_count = 65534 ∧
      ((List.replicate 65538 ((1000 : Nat), pkt_big)).map (fun q => q.2.total_length)).sum =
        65538 * 65535 ∧
      (65534 : Nat) ≠ 65538 * 65535 := by
  have hrep : List.replicate 65538 ((1000 : Nat), pkt_big) =
      ((1000 : Nat), pkt_big) :: List.replicate 65537 ((1000 : Nat), pkt_big) := rfl
  have hstep1 : process_packet 1000 pkt_big empty_state =
      ⟨[(key_big, 0)], [⟨key_big, 1000, 1000, htonl 1, htonl 65535⟩], []⟩ := by decide
  have hk : ∀ q ∈ List.replicate 65537 ((1000 : Nat), pkt_big), packet_flow_key q.2 = key_big := by
    intro q hq
    rw [List.eq_of_mem_replicate hq]
    rfl
  have hmain : process_packets (List.replicate 65538 ((1000 : Nat), pkt_big)) empty_state =
      ⟨[(key_big, 0)],
       [(List.replicate 65537 ((1000 : Nat), pkt_big)).foldl update_flow_record
          ⟨key_big, 1000, 1000, htonl 1, htonl 65535⟩],
       []⟩ := by
    rw [hrep]
    unfold process_packets
    rw [List.foldl_cons]
    simp only []
    rw [hstep1]
    exact process_packets_single_key key_big _ _ [] hk
  refine ⟨(List.replicate 65537 ((1000 : Nat), pkt_big)).foldl update_flow_record
      ⟨key_big, 1000, 1000, htonl 1, htonl 65535⟩, by rw [hmain], ?_, ?_, by decide⟩
  · rw [foldl_update_replicate_octet]
    have hc : (⟨key_big, 1000, 1000, htonl 1, htonl 65535⟩ : FlowValue).octet_count = 65535 := by
      decide
    rw [hc]
    norm_num [pkt_big, U16, U32]
  · rw [List.map_replicate, List.sum_const_nat]
    norm_num [pkt_big]

/-- C8 (amended): the assembled datagram carries exactly the claimed
IPv4 header (version 4, IHL 5, TOS 0, big-endian total length
20 + UDP length, zero identification and flags, TTL 64, protocol 17,
exporter source and collector destination addresses) and UDP header
(exporter source port, collector destination port, big-endian length
8 + payload length), except that the IPv4 checksum field is emitted as
zero — `ipfix_send_packet` assigns literal 0 and never computes the
RFC 791 checksum (the UDP checksum field is likewise never assigned and
its two uninitialized bytes are carried through). -/
theorem c8_datagram_layout (im : IpfixConfig) (payload udp_checksum_bytes : List Nat) :
    ipfix_send_packet_bytes im payload udp_checksum_bytes =
      [0x45, 0] ++ beBytes 2 (20 + 8 + payload.length) ++ [0, 0] ++ [0, 0] ++ [64, 17]
        ++ [0, 0] ++ beBytes 4 im.exporter_ip ++ beBytes 4 im.collector_ip
        ++ beBytes 2 im.exporter_port ++ beBytes 2 im.collector_port
        ++ beBytes 2 (8 + payload.length) ++ udp_checksum_bytes ++ payload := by
  unfold ipfix_send_packet_bytes
  rw [bswap16_mod_u16, bswap16_mod_u16, bswap16_mod_u16, bswap16_mod_u16,
    le2_bswap16, le2_bswap16, le2_bswap16, le2_bswap16]
  rfl

/-- C8 (counterexample to the claim as stated): the claim requires a
checksum computed per RFC 791.  For the concrete configuration `c8_cfg`
and a 49-byte payload, the emitted header carries 0 in its checksum
bytes, while the RFC 791 checksum of that header is 0x669E ≠ 0. -/
theorem c8_checksum_counterexample :
    (ipfix_send_packet_bytes c8_cfg (List.replicate 49 0) [0, 0])[10]? = some 0 ∧
    (ipfix_send_packet_bytes c8_cfg (List.replicate 49 0) [0, 0])[11]? = some 0 ∧
    spec_rfc791_checksum
        ((ipfix_send_packet_bytes c8_cfg (List.replicate 49 0) [0, 0]).take 20) = 0x669E ∧
    (0 : Nat) ≠ 0x669E := by
  decide
